import Mathlib

/-!
# Watermark injector (`src/frontend/public/custom-web-comps.js`)

The script registers a `DOMContentLoaded` listener which arms a 500 ms interval timer.
Each tick looks up the first element matching `.watermark`; when that element has no
descendant matching `span.powered-by-xenia`, its `innerHTML` is assigned the markup
`<span class="powered-by-xenia">Powered by DMI</span>` and the interval is cleared.

Embedding.
* The DOM is a rose tree of text nodes and HTML elements. An element carries its local
  name, its class list (the tokens of its `class` attribute), its other attributes and its
  children. Elements of the SVG and MathML namespaces and the contents fragment of a
  `template` element are not represented.
* An element reference obtained from `querySelector` is the path (child indices from the
  root) of that element; the script never holds a reference across a mutation.
* `querySelector` returns the first match in tree order (preorder, depth first).
  `document.querySelector` scans every element of the document, the root included;
  `element.querySelector` scans the descendants of the element, the element excluded.
* Assigning `innerHTML` parses the markup with the assigned element as context element (the
  fragment parsing algorithm of the HTML standard) and replaces the children of the element
  by the parsed nodes. The markup is a constant of the script, so the parse depends on the
  local name of the context element only: `fragmentContext` classifies the local names and
  `innerHTMLChildren` gives the children the element has afterwards. In an ordinary container
  the parse is one `span` element with the single class `powered-by-xenia` and one text
  child; in `textarea`, `title` and the raw text elements it is one text node holding the
  markup; a `template` element receives the nodes in its contents fragment and keeps its
  children.
* The timer is a boolean: active after `setInterval`, inactive after `clearInterval`.
  Time advances in periods of 500 ms; in each period the callback runs once if the timer is
  active and not at all otherwise. A race is modelled by running the callback body twice
  without consulting the timer.
-/

namespace WatermarkInjector

/-! ## Data model -/

/-- A DOM node: a text node or an element with local name, class list, remaining attributes
and children. -/
inductive Node where
  | text (data : String) : Node
  | elem (tag : String) (classes : List String) (attrs : List (String × String))
      (children : List Node) : Node

mutual
/-- Decidable equality of nodes. -/
def Node.decEq : (a b : Node) → Decidable (a = b)
  | .text s, .text t =>
    if h : s = t then isTrue (by rw [h]) else isFalse (by intro e; cases e; exact h rfl)
  | .text _, .elem _ _ _ _ => isFalse (by intro e; cases e)
  | .elem _ _ _ _, .text _ => isFalse (by intro e; cases e)
  | .elem t1 c1 a1 k1, .elem t2 c2 a2 k2 =>
    if h1 : t1 = t2 then
      if h2 : c1 = c2 then
        if h3 : a1 = a2 then
          match Node.decEqList k1 k2 with
          | isTrue h4 => isTrue (by rw [h1, h2, h3, h4])
          | isFalse h4 => isFalse (by intro e; cases e; exact h4 rfl)
        else isFalse (by intro e; cases e; exact h3 rfl)
      else isFalse (by intro e; cases e; exact h2 rfl)
    else isFalse (by intro e; cases e; exact h1 rfl)
/-- Decidable equality of child lists. -/
def Node.decEqList : (as bs : List Node) → Decidable (as = bs)
  | [], [] => isTrue rfl
  | [], _ :: _ => isFalse (by intro e; cases e)
  | _ :: _, [] => isFalse (by intro e; cases e)
  | a :: as, b :: bs =>
    match Node.decEq a b with
    | isTrue h1 =>
      match Node.decEqList as bs with
      | isTrue h2 => isTrue (by rw [h1, h2])
      | isFalse h2 => isFalse (by intro e; cases e; exact h2 rfl)
    | isFalse h1 => isFalse (by intro e; cases e; exact h1 rfl)
end

instance : DecidableEq Node := Node.decEq

/-- A compound selector: an optional type (tag) selector followed by one class selector. -/
structure Selector where
  tag : Option String
  cls : String

/-- The selector `.watermark` of `document.querySelector(".watermark")`. -/
def watermarkSelector : Selector := ⟨none, "watermark"⟩

/-- The selector `span.powered-by-xenia` of `watermark.querySelector(...)`. -/
def markerSelector : Selector := ⟨some "span", "powered-by-xenia"⟩

/-- The bare class selector `.powered-by-xenia`. -/
def markerClassSelector : Selector := ⟨none, "powered-by-xenia"⟩

/-- Does an element with this local name and class list match the selector. -/
def Selector.matchesElem (sel : Selector) (tag : String) (classes : List String) : Bool :=
  (match sel.tag with
   | none => true
   | some t => decide (t = tag)) && decide (sel.cls ∈ classes)

/-- A reference to a node: the child indices leading to it from the root. -/
abbrev Path := List Nat

mutual
/-- First element matching `sel` in the subtree of a node, the node included, in tree order. -/
def findNode (sel : Selector) : Node → Option Path
  | .text _ => none
  | .elem tag classes _ children =>
    if sel.matchesElem tag classes then some [] else findList sel 0 children
/-- First element matching `sel` in a list of sibling subtrees; `i` is the index of the head. -/
def findList (sel : Selector) (i : Nat) : List Node → Option Path
  | [] => none
  | n :: ns =>
    match findNode sel n with
    | some p => some (i :: p)
    | none => findList sel (i + 1) ns
end

/-- Evaluate `document.querySelector(sel)` on the document with the given root element. -/
def documentQuerySelector (sel : Selector) (root : Node) : Option Path :=
  findNode sel root

/-- Evaluate `element.querySelector(sel)` on an element with the given children, the path
being relative to the element. -/
def elementQuerySelector (sel : Selector) (children : List Node) : Option Path :=
  findList sel 0 children

/-- The node a path refers to. -/
def nodeAt : Node → Path → Option Node
  | n, [] => some n
  | .text _, _ :: _ => none
  | .elem _ _ _ children, i :: p =>
    match children[i]? with
    | some c => nodeAt c p
    | none => none

/-- Replace all children of the element a path refers to (the `innerHTML` setter, given the
parsed markup). -/
def setChildrenAt (new : List Node) : Node → Path → Node
  | .text s, _ => .text s
  | .elem t c a _, [] => .elem t c a new
  | .elem t c a children, i :: p =>
    match children[i]? with
    | some k => .elem t c a (children.set i (setChildrenAt new k p))
    | none => .elem t c a children

/-- The parse of `<span class="powered-by-xenia">Powered by DMI</span>`. -/
def markerSpan : Node := .elem "span" ["powered-by-xenia"] [] [.text "Powered by DMI"]

/-- The parse of the markup in an ordinary container: the span alone. -/
def markerFragment : List Node := [markerSpan]

/-- The string assigned to `innerHTML`. -/
def markerMarkup : String := "<span class=\"powered-by-xenia\">Powered by DMI</span>"

/-- How the fragment parser treats the markup, by kind of context element. -/
inductive FragmentContext where
  | flow : FragmentContext
  | rawText : FragmentContext
  | template : FragmentContext
  | htmlRoot : FragmentContext
  | select : FragmentContext
  | whitespaceOnly : FragmentContext
  deriving DecidableEq

/-- The kind of context an HTML element of this local name is for the fragment parser.
* `title`, `textarea` (RCDATA), `style`, `xmp`, `iframe`, `noembed`, `noframes`, `noscript`
  with scripting enabled (RAWTEXT), `script` (script data), `plaintext` (PLAINTEXT): the
  tokenizer does not start in the data state, the whole markup is character data.
* `template`: the setter writes into the contents fragment of the template.
* `html`: insertion mode "before head"; a `head` and a `body` are created and the span goes
  into the `body`.
* `select`: insertion mode "in select"; the `span` tags are ignored, the characters kept.
* `colgroup`, `frameset`: insertion modes "in column group" and "in frameset"; the tags and
  the non-space characters are ignored, the space characters kept.
* every other element (the table elements included, where the fragment case puts the span
  under the root of the fragment): the span is created with its text. -/
def fragmentContext (tag : String) : FragmentContext :=
  if tag ∈ ["title", "textarea", "style", "xmp", "iframe", "noembed", "noframes", "script",
      "noscript", "plaintext"] then .rawText
  else if tag = "template" then .template
  else if tag = "html" then .htmlRoot
  else if tag = "select" then .select
  else if tag ∈ ["colgroup", "frameset"] then .whitespaceOnly
  else .flow

/-- The children of an element of local name `tag` and children `old` after the assignment
`element.innerHTML = markerMarkup`. -/
def innerHTMLChildren (tag : String) (old : List Node) : List Node :=
  match fragmentContext tag with
  | .flow => markerFragment
  | .rawText => [.text markerMarkup]
  | .template => old
  | .htmlRoot => [.elem "head" [] [] [], .elem "body" [] [] markerFragment]
  | .select => [.text "Powered by DMI"]
  | .whitespaceOnly => [.text "  "]

/-! ## The interval callback -/

/-- What one run of the callback did: the document afterwards, whether `innerHTML` was
assigned, whether `clearInterval` was called. -/
structure TickResult where
  doc : Node
  wrote : Bool
  cleared : Bool

/-- The body of the `setInterval` callback. -/
def tickBody (doc : Node) : TickResult :=
  match documentQuerySelector watermarkSelector doc with
  | none => ⟨doc, false, false⟩
  | some w =>
    match nodeAt doc w with
    | some (.elem tag _ _ children) =>
      if (elementQuerySelector markerSelector children).isNone then
        ⟨setChildrenAt (innerHTMLChildren tag children) doc w, true, true⟩
      else ⟨doc, false, false⟩
    | _ => ⟨doc, false, false⟩

/-- The document after one run of the callback. -/
def tick (doc : Node) : Node := (tickBody doc).doc

/-! ## The timer -/

/-- The page: its document and whether the interval timer is active. -/
structure State where
  doc : Node
  timerActive : Bool

instance : DecidableEq State := fun a b =>
  match a, b with
  | ⟨d1, t1⟩, ⟨d2, t2⟩ =>
    if h1 : d1 = d2 then
      if h2 : t1 = t2 then isTrue (by rw [h1, h2])
      else isFalse (by intro e; cases e; exact h2 rfl)
    else isFalse (by intro e; cases e; exact h1 rfl)

/-- The `DOMContentLoaded` listener: `setInterval` arms the timer. -/
def startup (doc : Node) : State := ⟨doc, true⟩

/-- One period elapses: the callback runs if the timer is active, otherwise nothing runs. -/
def step (s : State) : State :=
  if s.timerActive then
    let r := tickBody s.doc
    ⟨r.doc, !r.cleared⟩
  else s

/-- The state after `n` periods. -/
def runTicks : Nat → State → State
  | 0, s => s
  | n + 1, s => runTicks n (step s)

/-- The period of the interval timer, in milliseconds. -/
def pollPeriod : Nat := 500

/-- The state after `ms` milliseconds, one period elapsing every `pollPeriod` milliseconds. -/
def elapse (ms : Nat) (s : State) : State := runTicks (ms / pollPeriod) s

/-- What happened in one period. -/
inductive Event where
  | idle : Event
  | ran (wrote : Bool) : Event
  deriving DecidableEq

/-- The event of the next period. -/
def stepEvent (s : State) : Event :=
  if s.timerActive then .ran (tickBody s.doc).wrote else .idle

/-- The events of the next `n` periods. -/
def trace : Nat → State → List Event
  | 0, _ => []
  | n + 1, s => stepEvent s :: trace n (step s)

/-- The children of the first `.watermark` element, if there is one. -/
def targetContent (doc : Node) : Option (List Node) :=
  match documentQuerySelector watermarkSelector doc with
  | none => none
  | some w =>
    match nodeAt doc w with
    | some (.elem _ _ _ children) => some children
    | _ => none

/-- The first `.watermark` element exists and has a descendant `span.powered-by-xenia`. -/
def marked (doc : Node) : Bool :=
  match targetContent doc with
  | none => false
  | some children => (elementQuerySelector markerSelector children).isSome

/-- The first `.watermark` element, if there is one, is an ordinary container for the
fragment parser: the markup parses in it to the span alone. -/
def targetOrdinary (doc : Node) : Bool :=
  match documentQuerySelector watermarkSelector doc with
  | none => true
  | some w =>
    match nodeAt doc w with
    | some (.elem tag _ _ _) => decide (fragmentContext tag = FragmentContext.flow)
    | _ => true

/-- Is this node an element of class `powered-by-xenia`, whatever its local name. -/
def hasMarkerClass : Node → Bool
  | .text _ => false
  | .elem _ classes _ _ => decide ("powered-by-xenia" ∈ classes)

/-- State WAITING of the spec: timer active, no marker in the target yet. -/
def waiting (s : State) : Bool := s.timerActive && !marked s.doc

/-- State DONE of the spec: timer cancelled, marker present in the target. -/
def done (s : State) : Bool := !s.timerActive && marked s.doc

/-! ## Sample documents -/

/-- A page whose watermark holds a loading spinner. -/
def docSpinner : Node :=
  .elem "html" [] [] [.elem "head" [] [] [], .elem "body" [] []
    [.elem "p" [] [] [.text "hello"],
     .elem "div" ["watermark"] [("id", "wm")] [.elem "i" ["spinner"] [] [], .text "loading"]]]

/-- A page without any watermark element. -/
def docPlain : Node :=
  .elem "html" [] [] [.elem "head" [] [] [], .elem "body" [] [] [.elem "p" [] [] [.text "hello"]]]

/-- A page whose watermark already holds a `span.powered-by-xenia` with a text of its own. -/
def docMarked : Node :=
  .elem "html" [] [] [.elem "head" [] [] [], .elem "body" [] []
    [.elem "div" ["watermark"] [] [.elem "span" ["powered-by-xenia"] [] [.text "Powered by Xenia"]]]]

/-- A page whose watermark holds a child of class `powered-by-xenia` that is a `div`. -/
def docCustomMarker : Node :=
  .elem "html" [] [] [.elem "head" [] [] [], .elem "body" [] []
    [.elem "div" ["watermark"] [] [.elem "div" ["powered-by-xenia"] [] [.text "Custom credit"]]]]

/-- A page whose watermark already holds two `span.powered-by-xenia` children. -/
def docTwoMarkers : Node :=
  .elem "html" [] [] [.elem "head" [] [] [], .elem "body" [] []
    [.elem "div" ["watermark"] []
      [.elem "span" ["powered-by-xenia"] [] [.text "one"],
       .elem "span" ["powered-by-xenia"] [] [.text "two"]]]]

/-- A page with no watermark element and a `powered-by-xenia` element of its own. -/
def docStrayMarker : Node :=
  .elem "html" [] [] [.elem "head" [] [] [], .elem "body" [] []
    [.elem "footer" [] [] [.elem "span" ["powered-by-xenia"] [] [.text "credits"]]]]

/-- A page whose first watermark element contains a second watermark element. -/
def docNested : Node :=
  .elem "html" [] [] [.elem "head" [] [] [], .elem "body" [] []
    [.elem "div" ["watermark"] [("id", "outer")]
      [.elem "div" ["watermark"] [("id", "inner")] [.text "loading"]]]]

/-- A page whose watermark is a `textarea`. -/
def docTextarea : Node :=
  .elem "html" [] [] [.elem "head" [] [] [], .elem "body" [] []
    [.elem "textarea" ["watermark"] [] [.text "loading"]]]

/-- A page with two watermark elements side by side: the first marked, the second not. -/
def docTwoTargets : Node :=
  .elem "html" [] [] [.elem "head" [] [] [], .elem "body" [] []
    [.elem "div" ["watermark"] [("id", "first")]
      [.elem "span" ["powered-by-xenia"] [] [.text "Powered by DMI"]],
     .elem "div" ["watermark"] [("id", "second")] [.elem "i" ["spinner"] [] []]]]

/-! ## Lemmas on the tree operations -/

theorem findList_none_iff (sel : Selector) (l : List Node) (i : Nat) :
    findList sel i l = none ↔ ∀ c ∈ l, findNode sel c = none := by
  induction l generalizing i with
  | nil => simp [findList]
  | cons n ns ih =>
    rw [findList]
    cases h : findNode sel n with
    | none => simp [ih, h]
    | some p => simp [h]

theorem findList_append_cons (sel : Selector) (pre : List Node) (c : Node) (post : List Node)
    (i : Nat) (p : Path) (hpre : ∀ x ∈ pre, findNode sel x = none)
    (hc : findNode sel c = some p) :
    findList sel i (pre ++ c :: post) = some ((i + pre.length) :: p) := by
  induction pre generalizing i with
  | nil => simp [findList, hc]
  | cons n ns ih =>
    have hn : findNode sel n = none := hpre n (List.mem_cons_self _ _)
    have hns : ∀ x ∈ ns, findNode sel x = none := fun x hx => hpre x (List.mem_cons_of_mem _ hx)
    rw [List.cons_append, findList, hn]
    simp only
    rw [ih (i + 1) hns]
    simp only [List.length_cons]
    congr 2
    omega

theorem findList_some_split (sel : Selector) (l : List Node) (i : Nat) (q : Path)
    (h : findList sel i l = some q) :
    ∃ pre c post p, l = pre ++ c :: post ∧ q = (i + pre.length) :: p ∧
      findNode sel c = some p ∧ ∀ x ∈ pre, findNode sel x = none := by
  induction l generalizing i with
  | nil => simp [findList] at h
  | cons n ns ih =>
    rw [findList] at h
    cases hn : findNode sel n with
    | some p =>
      rw [hn] at h
      simp only [Option.some.injEq] at h
      exact ⟨[], n, ns, p, rfl, by simp [← h], hn, by simp⟩
    | none =>
      rw [hn] at h
      simp only at h
      obtain ⟨pre, c, post, p, hl, hq, hc, hpre⟩ := ih (i + 1) h
      refine ⟨n :: pre, c, post, p, by simp [hl], ?_, hc, ?_⟩
      · rw [hq]; simp only [List.length_cons]; congr 1; omega
      · intro x hx
        rcases List.mem_cons.mp hx with rfl | hx
        · exact hn
        · exact hpre x hx


theorem getElem?_split (pre : List Node) (c : Node) (post : List Node) :
    (pre ++ c :: post)[pre.length]? = some c := by
  induction pre with
  | nil => simp
  | cons x xs ih => simpa using ih

theorem set_split (pre : List Node) (c x : Node) (post : List Node) :
    (pre ++ c :: post).set pre.length x = pre ++ x :: post := by
  induction pre with
  | nil => rfl
  | cons y ys ih => simp [List.set, ih]

/-- How a successful search in an element decomposes: either the element itself matches, or it
does not and the match is the first one among its children. -/
theorem findNode_elem_some (sel : Selector) (t : String) (c : List String)
    (a : List (String × String)) (k : List Node) (p : Path)
    (h : findNode sel (.elem t c a k) = some p) :
    (sel.matchesElem t c = true ∧ p = []) ∨
    (sel.matchesElem t c = false ∧ ∃ pre ch post q, k = pre ++ ch :: post ∧
      p = pre.length :: q ∧ findNode sel ch = some q ∧ ∀ x ∈ pre, findNode sel x = none) := by
  rw [findNode] at h
  by_cases hm : sel.matchesElem t c = true
  · left
    rw [if_pos hm] at h
    exact ⟨hm, (Option.some.inj h).symm⟩
  · right
    rw [if_neg hm] at h
    obtain ⟨pre, ch, post, q, hk, hp, hch, hpre⟩ := findList_some_split sel k 0 p h
    exact ⟨by simpa using hm, pre, ch, post, q, hk, by simpa using hp, hch, hpre⟩

theorem findNode_nodeAt (sel : Selector) (p : Path) (n : Node) (h : findNode sel n = some p) :
    ∃ t c a k, nodeAt n p = some (.elem t c a k) ∧ sel.matchesElem t c = true := by
  induction p generalizing n with
  | nil =>
    cases n with
    | text s => simp [findNode] at h
    | elem t c a k =>
      rcases findNode_elem_some sel t c a k [] h with ⟨hm, _⟩ | ⟨_, pre, ch, post, q, _, hp, _, _⟩
      · exact ⟨t, c, a, k, rfl, hm⟩
      · cases hp
  | cons j p ih =>
    cases n with
    | text s => simp [findNode] at h
    | elem t c a k =>
      rcases findNode_elem_some sel t c a k (j :: p) h with
        ⟨_, hp⟩ | ⟨_, pre, ch, post, q, hk, hp, hch, _⟩
      · cases hp
      · cases hp
        subst hk
        rw [nodeAt, getElem?_split]
        exact ih ch hch

theorem nodeAt_setChildrenAt (new : List Node) (p : Path) (n : Node) (t : String)
    (c : List String) (a : List (String × String)) (k : List Node)
    (h : nodeAt n p = some (.elem t c a k)) :
    nodeAt (setChildrenAt new n p) p = some (.elem t c a new) := by
  induction p generalizing n with
  | nil =>
    cases n with
    | text s => simp [nodeAt] at h
    | elem t1 c1 a1 k1 =>
      simp only [nodeAt, Option.some.injEq, Node.elem.injEq] at h
      obtain ⟨rfl, rfl, rfl, rfl⟩ := h
      rfl
  | cons j p ih =>
    cases n with
    | text s => simp [nodeAt] at h
    | elem t1 c1 a1 k1 =>
      rw [nodeAt] at h
      rw [setChildrenAt]
      cases hj : k1[j]? with
      | none => rw [hj] at h; cases h
      | some ch =>
        rw [hj] at h
        simp only at h ⊢
        rw [nodeAt, List.getElem?_set_eq_of_lt]
        · exact ih ch h
        · exact (List.getElem?_eq_some.mp hj).1

theorem findNode_setChildrenAt (sel : Selector) (new : List Node) (p : Path) (n : Node)
    (h : findNode sel n = some p) :
    findNode sel (setChildrenAt new n p) = some p := by
  induction p generalizing n with
  | nil =>
    cases n with
    | text s => simp [findNode] at h
    | elem t c a k =>
      rcases findNode_elem_some sel t c a k [] h with ⟨hm, _⟩ | ⟨_, pre, ch, post, q, _, hp, _, _⟩
      · rw [setChildrenAt, findNode, if_pos hm]
      · cases hp
  | cons j p ih =>
    cases n with
    | text s => simp [findNode] at h
    | elem t c a k =>
      rcases findNode_elem_some sel t c a k (j :: p) h with
        ⟨_, hp⟩ | ⟨hm, pre, ch, post, q, hk, hp, hch, hpre⟩
      · cases hp
      · cases hp
        subst hk
        rw [setChildrenAt, getElem?_split]
        simp only
        rw [set_split, findNode, hm]
        simp only [Bool.false_eq_true, if_false]
        rw [findList_append_cons sel pre _ post 0 p hpre (ih ch hch)]
        simp

theorem setChildrenAt_setChildrenAt (x y : List Node) (p : Path) (n : Node) :
    setChildrenAt x (setChildrenAt y n p) p = setChildrenAt x n p := by
  induction p generalizing n with
  | nil => cases n <;> rfl
  | cons j p ih =>
    cases n with
    | text s => rfl
    | elem t c a k =>
      cases hj : k[j]? with
      | none => simp [setChildrenAt, hj]
      | some ch =>
        have hlt : j < k.length := (List.getElem?_eq_some.mp hj).1
        simp [setChildrenAt, hj, List.getElem?_set_eq_of_lt, hlt, ih]


/-! ## Lemmas on the callback -/

theorem target_is_elem (d : Node) (w : Path)
    (hw : documentQuerySelector watermarkSelector d = some w) :
    ∃ t c a k, nodeAt d w = some (.elem t c a k) ∧ watermarkSelector.matchesElem t c = true :=
  findNode_nodeAt watermarkSelector w d hw

theorem tickBody_absent (d : Node) (h : documentQuerySelector watermarkSelector d = none) :
    tickBody d = ⟨d, false, false⟩ := by
  simp [tickBody, h]

theorem tickBody_marked (d : Node) (w : Path) (t : String) (c : List String)
    (a : List (String × String)) (k : List Node)
    (hw : documentQuerySelector watermarkSelector d = some w)
    (hn : nodeAt d w = some (.elem t c a k))
    (hm : (elementQuerySelector markerSelector k).isSome = true) :
    tickBody d = ⟨d, false, false⟩ := by
  cases hq : elementQuerySelector markerSelector k with
  | none => simp [hq] at hm
  | some q => simp [tickBody, hw, hn, hq]

theorem tickBody_unmarked (d : Node) (w : Path) (t : String) (c : List String)
    (a : List (String × String)) (k : List Node)
    (hw : documentQuerySelector watermarkSelector d = some w)
    (hn : nodeAt d w = some (.elem t c a k))
    (hm : elementQuerySelector markerSelector k = none) :
    tickBody d = ⟨setChildrenAt (innerHTMLChildren t k) d w, true, true⟩ := by
  simp [tickBody, hw, hn, hm]

theorem targetContent_of_target (d : Node) (w : Path) (t : String) (c : List String)
    (a : List (String × String)) (k : List Node)
    (hw : documentQuerySelector watermarkSelector d = some w)
    (hn : nodeAt d w = some (.elem t c a k)) :
    targetContent d = some k := by
  simp [targetContent, hw, hn]

theorem markerFragment_marked :
    (elementQuerySelector markerSelector markerFragment).isSome = true := by decide

theorem innerHTMLChildren_flow (t : String) (k : List Node)
    (h : fragmentContext t = FragmentContext.flow) : innerHTMLChildren t k = markerFragment := by
  simp [innerHTMLChildren, h]

/-- Assigning the markup a second time gives the children of the first assignment. -/
theorem innerHTMLChildren_idem (t : String) (k : List Node) :
    innerHTMLChildren t (innerHTMLChildren t k) = innerHTMLChildren t k := by
  cases h : fragmentContext t <;> simp [innerHTMLChildren, h]

theorem targetOrdinary_flow (d : Node) (w : Path) (t : String) (c : List String)
    (a : List (String × String)) (k : List Node)
    (hw : documentQuerySelector watermarkSelector d = some w)
    (hn : nodeAt d w = some (.elem t c a k)) (ho : targetOrdinary d = true) :
    fragmentContext t = FragmentContext.flow := by
  simpa [targetOrdinary, hw, hn] using ho

/-- The three cases of the callback, read off the document. -/
theorem tickBody_cases (d : Node) :
    (documentQuerySelector watermarkSelector d = none ∧ targetContent d = none ∧
      marked d = false ∧ tickBody d = ⟨d, false, false⟩) ∨
    (∃ w t c a k, documentQuerySelector watermarkSelector d = some w ∧
      nodeAt d w = some (.elem t c a k) ∧ targetContent d = some k ∧
      (elementQuerySelector markerSelector k).isSome = true ∧ marked d = true ∧
      tickBody d = ⟨d, false, false⟩) ∨
    (∃ w t c a k, documentQuerySelector watermarkSelector d = some w ∧
      nodeAt d w = some (.elem t c a k) ∧ targetContent d = some k ∧
      elementQuerySelector markerSelector k = none ∧ marked d = false ∧
      tickBody d = ⟨setChildrenAt (innerHTMLChildren t k) d w, true, true⟩) := by
  cases hw : documentQuerySelector watermarkSelector d with
  | none =>
    left
    exact ⟨rfl, by simp [targetContent, hw], by simp [marked, targetContent, hw],
      tickBody_absent d hw⟩
  | some w =>
    right
    obtain ⟨t, c, a, k, hn, _⟩ := target_is_elem d w hw
    have hc := targetContent_of_target d w t c a k hw hn
    cases hq : elementQuerySelector markerSelector k with
    | some q =>
      left
      exact ⟨w, t, c, a, k, rfl, hn, hc, by simp [hq], by simp [marked, hc, hq],
        tickBody_marked d w t c a k hw hn (by simp [hq])⟩
    | none =>
      right
      exact ⟨w, t, c, a, k, rfl, hn, hc, hq, by simp [marked, hc, hq],
        tickBody_unmarked d w t c a k hw hn hq⟩

/-- After the children of the first `.watermark` element are replaced, that element is still
the first `.watermark` element, with the new children. -/
theorem after_write (new : List Node) (d : Node) (w : Path) (t : String) (c : List String)
    (a : List (String × String)) (k : List Node)
    (hw : documentQuerySelector watermarkSelector d = some w)
    (hn : nodeAt d w = some (.elem t c a k)) :
    documentQuerySelector watermarkSelector (setChildrenAt new d w) = some w ∧
    nodeAt (setChildrenAt new d w) w = some (.elem t c a new) ∧
    targetContent (setChildrenAt new d w) = some new := by
  have h1 := findNode_setChildrenAt watermarkSelector new w d hw
  have h2 := nodeAt_setChildrenAt new w d t c a k hn
  exact ⟨h1, h2, targetContent_of_target _ w t c a new h1 h2⟩

/-- After an injection into an ordinary container the first `.watermark` element is the same
element and its children are the marker fragment. -/
theorem after_injection (d : Node) (w : Path) (t : String) (c : List String)
    (a : List (String × String)) (k : List Node)
    (hw : documentQuerySelector watermarkSelector d = some w)
    (hn : nodeAt d w = some (.elem t c a k)) :
    documentQuerySelector watermarkSelector (setChildrenAt markerFragment d w) = some w ∧
    nodeAt (setChildrenAt markerFragment d w) w = some (.elem t c a markerFragment) ∧
    targetContent (setChildrenAt markerFragment d w) = some markerFragment ∧
    marked (setChildrenAt markerFragment d w) = true := by
  obtain ⟨h1, h2, h3⟩ := after_write markerFragment d w t c a k hw hn
  refine ⟨h1, h2, h3, ?_⟩
  rw [marked, h3]
  exact markerFragment_marked

theorem tickBody_wrote_eq_cleared (d : Node) : (tickBody d).cleared = (tickBody d).wrote := by
  rcases tickBody_cases d with ⟨_, _, _, h⟩ | ⟨_, _, _, _, _, _, _, _, _, _, h⟩ |
    ⟨_, _, _, _, _, _, _, _, _, _, h⟩ <;> rw [h]

theorem tickBody_nowrite (d : Node) (h : (tickBody d).wrote = false) :
    tickBody d = ⟨d, false, false⟩ := by
  rcases tickBody_cases d with ⟨_, _, _, h1⟩ | ⟨_, _, _, _, _, _, _, _, _, _, h1⟩ |
    ⟨_, _, _, _, _, _, _, _, _, _, h1⟩
  · exact h1
  · exact h1
  · rw [h1] at h; cases h

theorem tick_idempotent (d : Node) : tick (tick d) = tick d := by
  rcases tickBody_cases d with ⟨_, _, _, h⟩ | ⟨_, _, _, _, _, _, _, _, _, _, h⟩ |
    ⟨w, t, c, a, k, hw, hn, _, _, _, h⟩
  · simp [tick, h]
  · simp [tick, h]
  · obtain ⟨h1, h2, _⟩ := after_write (innerHTMLChildren t k) d w t c a k hw hn
    have ht : tick d = setChildrenAt (innerHTMLChildren t k) d w := by rw [tick, h]
    rw [ht]
    cases hq : elementQuerySelector markerSelector (innerHTMLChildren t k) with
    | some q =>
      have h3 := tickBody_marked _ w t c a (innerHTMLChildren t k) h1 h2 (by simp [hq])
      rw [tick, h3]
    | none =>
      have h3 := tickBody_unmarked _ w t c a (innerHTMLChildren t k) h1 h2 hq
      rw [tick, h3, innerHTMLChildren_idem, setChildrenAt_setChildrenAt]

theorem step_inactive (s : State) (h : s.timerActive = false) : step s = s := by
  simp [step, h]

theorem runTicks_inactive (n : Nat) (s : State) (h : s.timerActive = false) :
    runTicks n s = s := by
  induction n with
  | zero => rfl
  | succ n ih => rw [runTicks, step_inactive s h, ih]

theorem runTicks_fixed (n : Nat) (s : State) (h : step s = s) : runTicks n s = s := by
  induction n with
  | zero => rfl
  | succ n ih => rw [runTicks, h, ih]

theorem step_nowrite (d : Node) (b : Bool) (h : (tickBody d).wrote = false) :
    step ⟨d, b⟩ = ⟨d, b⟩ := by
  cases b with
  | false => rfl
  | true => simp [step, tickBody_nowrite d h]

theorem trace_inactive (n : Nat) (s : State) (h : s.timerActive = false) :
    trace n s = List.replicate n Event.idle := by
  induction n with
  | zero => rfl
  | succ n ih =>
    rw [trace, step_inactive s h, ih, List.replicate_succ]
    simp [stepEvent, h]

theorem trace_nowrite (n : Nat) (d : Node) (h : (tickBody d).wrote = false) :
    trace n (startup d) = List.replicate n (Event.ran false) := by
  induction n with
  | zero => rfl
  | succ n ih =>
    rw [trace, startup, step_nowrite d true h, List.replicate_succ]
    rw [startup] at ih
    rw [ih]
    simp [stepEvent, h]

theorem trace_write (n : Nat) (d : Node) (h : (tickBody d).wrote = true) :
    trace (n + 1) (startup d) = Event.ran true :: List.replicate n Event.idle := by
  rw [trace, trace_inactive]
  · simp [stepEvent, startup, h]
  · simp [step, startup, tickBody_wrote_eq_cleared, h]


/-! ## The model on the sample documents -/

theorem sample_query : documentQuerySelector watermarkSelector docSpinner = some [1, 1] := by
  decide

theorem sample_tick :
    tick docSpinner = .elem "html" [] [] [.elem "head" [] [] [], .elem "body" [] []
      [.elem "p" [] [] [.text "hello"],
       .elem "div" ["watermark"] [("id", "wm")] [markerSpan]]] := by
  decide

theorem sample_run : runTicks 3 (startup docSpinner) = ⟨tick docSpinner, false⟩ := by decide

theorem sample_run_plain : runTicks 3 (startup docPlain) = ⟨docPlain, true⟩ := by decide

theorem sample_contexts :
    innerHTMLChildren "div" [Node.text "x"] = [markerSpan] ∧
    innerHTMLChildren "table" [Node.text "x"] = [markerSpan] ∧
    innerHTMLChildren "title" [Node.text "x"] = [Node.text markerMarkup] ∧
    innerHTMLChildren "template" [Node.text "x"] = [Node.text "x"] ∧
    innerHTMLChildren "html" [Node.text "x"] =
      [Node.elem "head" [] [] [], Node.elem "body" [] [] [markerSpan]] ∧
    innerHTMLChildren "select" [Node.text "x"] = [Node.text "Powered by DMI"] := by
  decide

theorem sample_textarea_run :
    trace 3 (startup docTextarea) = [Event.ran true, Event.idle, Event.idle] ∧
    tick (tick docTextarea) = tick docTextarea := by
  decide

theorem sample_trace :
    trace 3 (startup docSpinner) = [Event.ran true, Event.idle, Event.idle] := by decide

/-- Replacing the children of the element at `w` leaves every subtree that is neither inside
that element nor contains it as it was. -/
theorem nodeAt_setChildrenAt_disjoint (new : List Node) (w : Path) (n : Node) (q : Path)
    (h1 : ¬ w <+: q) (h2 : ¬ q <+: w) :
    nodeAt (setChildrenAt new n w) q = nodeAt n q := by
  induction w generalizing n q with
  | nil => exact absurd ⟨q, rfl⟩ h1
  | cons i w ih =>
    cases q with
    | nil => exact absurd ⟨i :: w, rfl⟩ h2
    | cons j q =>
      cases n with
      | text s => rfl
      | elem t c a k =>
        rw [setChildrenAt]
        cases hk : k[i]? with
        | none => rfl
        | some ch =>
          simp only
          rw [nodeAt, nodeAt]
          by_cases hij : i = j
          · subst hij
            have hlt : i < k.length := (List.getElem?_eq_some.mp hk).1
            rw [List.getElem?_set_eq_of_lt _ hlt, hk]
            simp only
            apply ih
            · intro hp
              obtain ⟨r, hr⟩ := hp
              exact h1 ⟨r, by rw [List.cons_append, hr]⟩
            · intro hp
              obtain ⟨r, hr⟩ := hp
              exact h2 ⟨r, by rw [List.cons_append, hr]⟩
          · rw [List.getElem?_set_ne hij]

/-! ## Injection -/

/-- C1, as stated, fails: the first `.watermark` element of this page is a `textarea` without
any `span.powered-by-xenia` descendant; the markup assigned to its `innerHTML` is parsed as
character data, so after the tick its only child is a text node holding the markup, not a
span. -/
theorem textarea_target_gets_text :
    documentQuerySelector watermarkSelector docTextarea = some [1, 0] ∧
    nodeAt docTextarea [1, 0] = some (.elem "textarea" ["watermark"] [] [.text "loading"]) ∧
    elementQuerySelector markerSelector [Node.text "loading"] = none ∧
    nodeAt (tick docTextarea) [1, 0] = some (.elem "textarea" ["watermark"] []
      [.text "<span class=\"powered-by-xenia\">Powered by DMI</span>"]) ∧
    documentQuerySelector markerClassSelector (tick docTextarea) = none := by
  decide

/-- C1, amended. Injection replaces the whole content: when the first `.watermark` element `w`
is an ordinary container for the fragment parser (not `textarea`, `title`, a raw text element,
`template`, `html`, `select`, `colgroup` or `frameset`) and has no descendant matching
`span.powered-by-xenia`, then after one run of the callback `w` is still the first `.watermark`
element, keeps its tag, classes and attributes, and has exactly one child, the span of class
`powered-by-xenia` whose only content is the text "Powered by DMI"; none of the children it
had before is among its children. -/
theorem injection_replaces_content (d : Node) (w : Path) (t : String) (c : List String)
    (a : List (String × String)) (k : List Node)
    (hw : documentQuerySelector watermarkSelector d = some w)
    (hn : nodeAt d w = some (.elem t c a k))
    (hf : fragmentContext t = FragmentContext.flow)
    (hm : elementQuerySelector markerSelector k = none) :
    documentQuerySelector watermarkSelector (tick d) = some w ∧
    nodeAt (tick d) w = some (.elem t c a
      [.elem "span" ["powered-by-xenia"] [] [.text "Powered by DMI"]]) ∧
    ∀ x ∈ k, x ∉ [Node.elem "span" ["powered-by-xenia"] [] [.text "Powered by DMI"]] := by
  have hb := tickBody_unmarked d w t c a k hw hn hm
  rw [innerHTMLChildren_flow t k hf] at hb
  obtain ⟨h1, h2, _, _⟩ := after_injection d w t c a k hw hn
  refine ⟨by rw [tick, hb]; exact h1, by rw [tick, hb]; exact h2, ?_⟩
  intro x hx hmem
  rw [List.mem_singleton] at hmem
  have hx0 := (findList_none_iff markerSelector k 0).mp hm x hx
  rw [hmem] at hx0
  revert hx0
  decide

theorem injection_replaces_content_witness :
    documentQuerySelector watermarkSelector (tick docSpinner) = some [1, 1] ∧
    nodeAt (tick docSpinner) [1, 1] = some (.elem "div" ["watermark"] [("id", "wm")]
      [.elem "span" ["powered-by-xenia"] [] [.text "Powered by DMI"]]) ∧
    ∀ x ∈ [Node.elem "i" ["spinner"] [] [], Node.text "loading"],
      x ∉ [Node.elem "span" ["powered-by-xenia"] [] [.text "Powered by DMI"]] :=
  injection_replaces_content docSpinner [1, 1] "div" ["watermark"] [("id", "wm")]
    [.elem "i" ["spinner"] [] [], .text "loading"] (by decide) (by decide) (by decide)
    (by decide)

/-! ## Idempotence on a marked target -/

/-- C2, as stated, fails: a watermark whose child of class `powered-by-xenia` is a `div` is
not recognised by `span.powered-by-xenia`; the first tick replaces the content. -/
theorem marker_of_other_type_replaced :
    targetContent docCustomMarker =
      some [.elem "div" ["powered-by-xenia"] [] [.text "Custom credit"]] ∧
    targetContent (runTicks 1 (startup docCustomMarker)).doc = some [markerSpan] ∧
    targetContent (runTicks 1 (startup docCustomMarker)).doc ≠ targetContent docCustomMarker := by
  decide

/-- C2, amended. When the first `.watermark` element already contains a `span` element of class
`powered-by-xenia` (a child or a deeper descendant, whatever its text), any number of ticks,
with the timer active or not, leaves the state unchanged: the document, hence the content of
the watermark element, is identical to what it was. -/
theorem marked_target_unchanged (d : Node) (b : Bool) (n : Nat) (h : marked d = true) :
    runTicks n ⟨d, b⟩ = ⟨d, b⟩ ∧
    targetContent (runTicks n ⟨d, b⟩).doc = targetContent d := by
  have hs : runTicks n ⟨d, b⟩ = ⟨d, b⟩ := by
    apply runTicks_fixed
    apply step_nowrite
    rcases tickBody_cases d with ⟨_, _, hm, _⟩ | ⟨_, _, _, _, _, _, _, _, _, _, hb⟩ |
      ⟨_, _, _, _, _, _, _, _, _, hm, _⟩
    · rw [hm] at h; cases h
    · rw [hb]
    · rw [hm] at h; cases h
  exact ⟨hs, by rw [hs]⟩

theorem marked_target_unchanged_witness :
    runTicks 4 ⟨docMarked, true⟩ = ⟨docMarked, true⟩ ∧
    targetContent (runTicks 4 ⟨docMarked, true⟩).doc = targetContent docMarked :=
  marked_target_unchanged docMarked true 4 (by decide)

/-! ## The timer -/

/-- C3. A tick (the timer being active) cancels the timer exactly when it performs the
injection (the assignment to `innerHTML`), and it performs the injection exactly when the
document has an element matching `.watermark` and that element, the one
`document.querySelector` returns, has no marker (no descendant matching
`span.powered-by-xenia`); the document afterwards is the one in which that element has the
children the assignment gives it. With no watermark element, or with the watermark already
marked, the timer is still active after the tick. -/
theorem timer_cancelled_iff_injected (d : Node) :
    ((step ⟨d, true⟩).timerActive = false ↔ (tickBody d).wrote = true) ∧
    ((tickBody d).wrote = true ↔
      ((documentQuerySelector watermarkSelector d).isSome = true ∧ marked d = false)) ∧
    ((tickBody d).wrote = true ↔ ∃ w t c a k,
      documentQuerySelector watermarkSelector d = some w ∧ nodeAt d w = some (.elem t c a k) ∧
      elementQuerySelector markerSelector k = none ∧
      (step ⟨d, true⟩).doc = setChildrenAt (innerHTMLChildren t k) d w) := by
  rcases tickBody_cases d with ⟨hw, _, hm, hb⟩ | ⟨w, t, c, a, k, hw, hn, _, hq, hm, hb⟩ |
    ⟨w, t, c, a, k, hw, hn, _, hq, hm, hb⟩
  · simp [step, hb, hw]
  · refine ⟨by simp [step, hb], by simp [hb, hm], ?_⟩
    simp only [hb, Bool.false_eq_true, false_iff, not_exists]
    intro w1 t1 c1 a1 k1 h
    obtain ⟨h1, h2, h3, _⟩ := h
    rw [hw] at h1
    cases h1
    rw [hn] at h2
    cases h2
    rw [h3] at hq
    cases hq
  · refine ⟨by simp [step, hb], by simp [hb, hm, hw], ?_⟩
    simp only [hb, true_iff]
    exact ⟨w, t, c, a, k, hw, hn, hq, by simp [step, hb]⟩

/-- C4. With no element matching `.watermark`, any number of ticks leaves the document
identical and the timer active. -/
theorem absent_target_retried_forever (d : Node) (n : Nat)
    (h : documentQuerySelector watermarkSelector d = none) :
    runTicks n (startup d) = startup d ∧
    (runTicks n (startup d)).doc = d ∧ (runTicks n (startup d)).timerActive = true := by
  have hs : runTicks n (startup d) = startup d := by
    apply runTicks_fixed
    apply step_nowrite
    rw [tickBody_absent d h]
  rw [hs]
  exact ⟨rfl, rfl, rfl⟩

theorem absent_target_retried_forever_witness :
    runTicks 7 (startup docPlain) = startup docPlain ∧
    (runTicks 7 (startup docPlain)).doc = docPlain ∧
    (runTicks 7 (startup docPlain)).timerActive = true :=
  absent_target_retried_forever docPlain 7 (by decide)

/-- C5. DONE is terminal: a state reached by a tick that injects has the timer cancelled, and
any number of further periods (any amount of elapsed time) leaves that whole state unchanged,
no callback running in any of them. -/
theorem done_is_terminal (s : State) (n ms : Nat) (ha : s.timerActive = true)
    (hw : (tickBody s.doc).wrote = true) :
    (step s).timerActive = false ∧ runTicks n (step s) = step s ∧
    elapse ms (step s) = step s ∧
    trace n (step s) = List.replicate n Event.idle := by
  have h1 : (step s).timerActive = false := by
    simp [step, ha, tickBody_wrote_eq_cleared, hw]
  exact ⟨h1, runTicks_inactive n (step s) h1, runTicks_inactive _ (step s) h1,
    trace_inactive n (step s) h1⟩

theorem done_is_terminal_witness :
    (step (startup docSpinner)).timerActive = false ∧
    runTicks 5 (step (startup docSpinner)) = step (startup docSpinner) ∧
    elapse 2600 (step (startup docSpinner)) = step (startup docSpinner) ∧
    trace 5 (step (startup docSpinner)) = List.replicate 5 Event.idle :=
  done_is_terminal (startup docSpinner) 5 2600 (by decide) (by decide)

/-! ## Races and runs -/

/-- C6, as stated, fails. On a page whose watermark already holds two `span.powered-by-xenia`
children, two runs of the callback in immediate succession give the same document as one run,
and the target element then holds two children of class `powered-by-xenia`. On a page whose
watermark is a `textarea`, the second run writes again and the target element holds no child
of class `powered-by-xenia`. -/
theorem marker_count_not_always_one :
    tick (tick docTwoMarkers) = tick docTwoMarkers ∧
    (targetContent (tick (tick docTwoMarkers))).map (List.countP hasMarkerClass) = some 2 ∧
    (tickBody docTextarea).wrote = true ∧
    (tickBody (tick docTextarea)).wrote = true ∧
    (targetContent (tick (tick docTextarea))).map (List.countP hasMarkerClass) = some 0 := by
  decide

/-- C6, amended. For every document two runs of the callback in immediate succession (the
second run not waiting for the cancellation issued by the first) yield the same document as
one run; whenever the first run does not inject, the document after the two runs is the
initial document, no child being added; whenever the first run injects and the target is an
ordinary container for the fragment parser, the second run writes nothing and the target
element then holds exactly one child, the injected span, so exactly one child of class
`powered-by-xenia`. -/
theorem single_injection_under_races (d : Node) :
    tick (tick d) = tick d ∧
    ((tickBody d).wrote = false → tick (tick d) = d) ∧
    ((tickBody d).wrote = true → targetOrdinary d = true →
      (tickBody (tick d)).wrote = false ∧
      targetContent (tick (tick d)) = some [markerSpan] ∧
      (targetContent (tick (tick d))).map (List.countP hasMarkerClass) = some 1) := by
  refine ⟨tick_idempotent d, ?_, ?_⟩
  · intro hwr
    have hb := tickBody_nowrite d hwr
    have ht : tick d = d := by rw [tick, hb]
    rw [ht, ht]
  intro hwr ho
  rcases tickBody_cases d with ⟨_, _, _, hb⟩ | ⟨_, _, _, _, _, _, _, _, _, _, hb⟩ |
    ⟨w, t, c, a, k, hw, hn, _, _, _, hb⟩
  · rw [hb] at hwr; cases hwr
  · rw [hb] at hwr; cases hwr
  · rw [innerHTMLChildren_flow t k (targetOrdinary_flow d w t c a k hw hn ho)] at hb
    obtain ⟨h1, h2, h3, _⟩ := after_injection d w t c a k hw hn
    have h4 := tickBody_marked _ w t c a markerFragment h1 h2 markerFragment_marked
    have h5 : tick d = setChildrenAt markerFragment d w := by rw [tick, hb]
    rw [tick_idempotent, h5, h4, h3]
    exact ⟨rfl, rfl, rfl⟩

theorem single_injection_under_races_witness :
    (tickBody (tick docSpinner)).wrote = false ∧
    targetContent (tick (tick docSpinner)) = some [markerSpan] ∧
    (targetContent (tick (tick docSpinner))).map (List.countP hasMarkerClass) = some 1 :=
  (single_injection_under_races docSpinner).2.2 (by decide) (by decide)

/-- C7. In every finite run of periods from startup, at most one tick writes the content of
the target element, and in every period after the one whose tick writes no tick runs. -/
theorem at_most_one_injection (d : Node) (n : Nat) :
    (trace n (startup d)).count (Event.ran true) ≤ 1 ∧
    ∀ (i j : Nat) (e : Event), i < j → (trace n (startup d))[i]? = some (Event.ran true) →
      (trace n (startup d))[j]? = some e → e = Event.idle := by
  cases hwr : (tickBody d).wrote with
  | false =>
    rw [trace_nowrite n d hwr]
    constructor
    · rw [List.count_replicate]; simp
    · intro i j e _ hi _
      rw [List.getElem?_replicate] at hi
      split at hi <;> simp at hi
  | true =>
    cases n with
    | zero => simp [trace]
    | succ m =>
      rw [trace_write m d hwr]
      constructor
      · rw [List.count_cons, List.count_replicate]; simp
      · intro i j e hij _ hj
        cases j with
        | zero => omega
        | succ j =>
          rw [List.getElem?_cons_succ, List.getElem?_replicate] at hj
          split at hj
          · exact (Option.some.inj hj).symm
          · cases hj

/-! ## The two states -/

/-- C8, as stated, fails. On a page whose watermark is already marked when the script starts,
every reachable state has the timer active with the marker present, so it is neither WAITING
nor DONE. On a page whose watermark is a `textarea`, the first tick cancels the timer and
leaves no `span.powered-by-xenia` in the target: timer cancelled with the marker absent. -/
theorem reachable_state_in_neither_state :
    (runTicks 3 (startup docMarked)).timerActive = true ∧
    marked (runTicks 3 (startup docMarked)).doc = true ∧
    waiting (runTicks 3 (startup docMarked)) = false ∧
    done (runTicks 3 (startup docMarked)) = false ∧
    (runTicks 1 (startup docTextarea)).timerActive = false ∧
    marked (runTicks 1 (startup docTextarea)).doc = false ∧
    waiting (runTicks 1 (startup docTextarea)) = false ∧
    done (runTicks 1 (startup docTextarea)) = false := by
  decide

/-- C8, amended. For every initial document whose first `.watermark` element, if any, is an
ordinary container for the fragment parser and does not already contain a
`span.powered-by-xenia`, every state reachable from startup by ticks is in exactly one of
WAITING and DONE. For every initial document whose first `.watermark` element, if any, is an
ordinary container, no reachable state has the timer cancelled with the marker absent. When
the target is marked at startup, every reachable state is the startup state (timer active,
marker present). -/
theorem two_state_machine (d : Node) (n : Nat) :
    (marked d = false → targetOrdinary d = true →
      (waiting (runTicks n (startup d)) = true ∧ done (runTicks n (startup d)) = false) ∨
      (waiting (runTicks n (startup d)) = false ∧ done (runTicks n (startup d)) = true)) ∧
    (targetOrdinary d = true → (runTicks n (startup d)).timerActive = false →
      marked (runTicks n (startup d)).doc = true) ∧
    (marked d = true → runTicks n (startup d) = startup d) := by
  rcases tickBody_cases d with ⟨_, _, hm, hb⟩ | ⟨_, _, _, _, _, _, _, _, _, hm, hb⟩ |
    ⟨w, t, c, a, k, hw, hn, _, _, hm, hb⟩
  · have hs : runTicks n (startup d) = startup d :=
      runTicks_fixed n _ (step_nowrite d true (by rw [hb]))
    rw [hs]
    simp [waiting, done, startup, hm]
  · have hs : runTicks n (startup d) = startup d :=
      runTicks_fixed n _ (step_nowrite d true (by rw [hb]))
    rw [hs]
    simp [waiting, done, startup, hm]
  · cases n with
    | zero => simp [runTicks, waiting, done, startup, hm]
    | succ m =>
      have hst : step (startup d) = ⟨setChildrenAt (innerHTMLChildren t k) d w, false⟩ := by
        simp [step, startup, hb]
      rw [runTicks, hst, runTicks_inactive m _ rfl]
      have hdone : targetOrdinary d = true →
          marked (setChildrenAt (innerHTMLChildren t k) d w) = true := by
        intro ho
        rw [innerHTMLChildren_flow t k (targetOrdinary_flow d w t c a k hw hn ho)]
        exact (after_injection d w t c a k hw hn).2.2.2
      refine ⟨fun _ ho => ?_, fun ho _ => hdone ho, fun h => ?_⟩
      · simp [waiting, done, hdone ho]
      · rw [hm] at h; cases h

theorem two_state_machine_witness :
    (waiting (runTicks 2 (startup docSpinner)) = true ∧
      done (runTicks 2 (startup docSpinner)) = false) ∨
    (waiting (runTicks 2 (startup docSpinner)) = false ∧
      done (runTicks 2 (startup docSpinner)) = true) :=
  (two_state_machine docSpinner 2).1 (by decide) (by decide)

/-! ## Frame -/

/-- C9, as stated, fails: a page with no watermark element can hold an element of class
`powered-by-xenia` of its own, and it is still there after any number of ticks. -/
theorem stray_marker_remains :
    documentQuerySelector watermarkSelector docStrayMarker = none ∧
    documentQuerySelector markerClassSelector (runTicks 3 (startup docStrayMarker)).doc =
      some [1, 0, 0] := by
  decide

/-- C9, amended. For every document that has no element of class `watermark` and no element
of class `powered-by-xenia`, after the startup event and any number of ticks the document is
unchanged and no element of class `powered-by-xenia` exists anywhere in it. -/
theorem no_marker_without_target (d : Node) (n : Nat)
    (h : documentQuerySelector watermarkSelector d = none)
    (h0 : documentQuerySelector markerClassSelector d = none) :
    (runTicks n (startup d)).doc = d ∧
    documentQuerySelector markerClassSelector (runTicks n (startup d)).doc = none := by
  have hs : runTicks n (startup d) = startup d :=
    runTicks_fixed n _ (step_nowrite d true (by rw [tickBody_absent d h]))
  rw [hs]
  exact ⟨rfl, h0⟩

theorem no_marker_without_target_witness :
    (runTicks 6 (startup docPlain)).doc = docPlain ∧
    documentQuerySelector markerClassSelector (runTicks 6 (startup docPlain)).doc = none :=
  no_marker_without_target docPlain 6 (by decide) (by decide)

/-- C10, as stated, fails: a `.watermark` element nested in the first one is another element of
class `watermark`, and the injection into the first one destroys it. -/
theorem nested_watermark_destroyed :
    documentQuerySelector watermarkSelector docNested = some [1, 0] ∧
    nodeAt docNested [1, 0, 0] =
      some (.elem "div" ["watermark"] [("id", "inner")] [.text "loading"]) ∧
    nodeAt (tick docNested) [1, 0, 0] = some markerSpan ∧
    tick docNested = .elem "html" [] [] [.elem "head" [] [] [], .elem "body" [] []
      [.elem "div" ["watermark"] [("id", "outer")] [markerSpan]]] := by
  decide

/-- C10, amended. A tick touches nothing but the content of the first `.watermark` element `w`
(tree order): with no such element the document is unchanged; otherwise `w` is still the first
`.watermark` element, the documents before and after agree once the children of `w` are removed
from both (so every node outside the content of `w` keeps its tag, classes, attributes and
position), `w` keeps its own tag, classes and attributes, and every subtree that neither lies
inside `w` nor contains `w` is identical; this covers every other element of class `watermark`
that is not nested inside `w`. In particular, when the first `.watermark` element already holds
a `span.powered-by-xenia`, no number of ticks changes the document, so a later unmarked
`.watermark` element is never injected. -/
theorem only_first_match_touched (d : Node) :
    (documentQuerySelector watermarkSelector d = none → tick d = d) ∧
    (∀ w, documentQuerySelector watermarkSelector d = some w →
      documentQuerySelector watermarkSelector (tick d) = some w ∧
      setChildrenAt [] (tick d) w = setChildrenAt [] d w ∧
      (∃ t c a k k1, nodeAt d w = some (.elem t c a k) ∧
        nodeAt (tick d) w = some (.elem t c a k1)) ∧
      ∀ q, ¬ w <+: q → ¬ q <+: w → nodeAt (tick d) q = nodeAt d q) ∧
    (marked d = true → ∀ n b, runTicks n ⟨d, b⟩ = ⟨d, b⟩) := by
  rcases tickBody_cases d with ⟨hw, _, hm, hb⟩ | ⟨w, t, c, a, k, hw, hn, _, _, hm, hb⟩ |
    ⟨w, t, c, a, k, hw, hn, _, _, hm, hb⟩
  · refine ⟨fun _ => (by rw [tick, hb]), ?_, ?_⟩
    · intro w0 h0; rw [hw] at h0; cases h0
    · intro h; rw [hm] at h; cases h
  · have ht : tick d = d := by rw [tick, hb]
    refine ⟨fun _ => ht, ?_, ?_⟩
    · intro w0 h0
      rw [hw] at h0
      cases h0
      rw [ht]
      exact ⟨hw, rfl, ⟨t, c, a, k, k, hn, hn⟩, fun _ _ _ => rfl⟩
    · intro _ n b
      exact runTicks_fixed n _ (step_nowrite d b (by rw [hb]))
  · have ht : tick d = setChildrenAt (innerHTMLChildren t k) d w := by rw [tick, hb]
    obtain ⟨h1, h2, _⟩ := after_write (innerHTMLChildren t k) d w t c a k hw hn
    refine ⟨fun h => (by rw [hw] at h; cases h), ?_, ?_⟩
    · intro w0 h0
      rw [hw] at h0
      cases h0
      rw [ht]
      exact ⟨h1, setChildrenAt_setChildrenAt [] (innerHTMLChildren t k) w d,
        ⟨t, c, a, k, innerHTMLChildren t k, hn, h2⟩,
        fun q hq1 hq2 => nodeAt_setChildrenAt_disjoint (innerHTMLChildren t k) w d q hq1 hq2⟩
    · intro h; rw [hm] at h; cases h

theorem only_first_match_touched_witness :
    runTicks 5 ⟨docTwoTargets, true⟩ = ⟨docTwoTargets, true⟩ ∧
    nodeAt (runTicks 5 ⟨docTwoTargets, true⟩).doc [1, 1] =
      some (.elem "div" ["watermark"] [("id", "second")] [.elem "i" ["spinner"] [] []]) :=
  ⟨(only_first_match_touched docTwoTargets).2.2 (by decide) 5 true, by decide⟩

end WatermarkInjector
